import Mathlib

/-!
Shallow embedding of the core of `script.js` from the "What's That Interval?"
ear-training game: pitch model, interval catalog, question generator, audio
scheduler control flow (playback tokens, deferred enable-answers timers,
scheduled voices), round state machine and score tracker.

Conventions used throughout:

* JS numbers that only ever hold integers are embedded as `Int` (or `Nat` for
  counters that start at 0 and only ever increment).
* Time is embedded in integer milliseconds (`Int`).  Every timing constant of
  the source (`NOTE_PLAY_SEC = 1.15`, `GAP_SEC = 0.18`,
  `ROUND_START_DELAY_SEC = 0.25`, the `0.03` scheduling offset) is an exact
  multiple of 10 ms, so the seconds arithmetic of the source corresponds to
  millisecond integer arithmetic scaled by 1000, and
  `Math.round((t0 - now) * 1000)` becomes the identity on the scaled
  difference.
* `Math.random()`-driven choices are passed in as oracle arguments (`Nat`s
  reduced modulo the size of the range they index, matching
  `Math.floor(Math.random() * n)` which always lands in `[0, n)`), and the
  outcome of fetching/decoding a sample is passed in as an availability
  oracle `Int → Bool`.
* Side effects that the claims observe are reified in the state:
  `window.setTimeout` callbacks become `Timer` records appended to
  `pending`, scheduled WebAudio voices become `Voice` records in `voices`,
  and the one-time synth-fallback notification becomes the `warnings` list.
-/

namespace WTI

/-- Root-selection mode of the settings object (`"random"` or `"fixed"`). -/
inductive RootMode
  | random
  | fixed
deriving DecidableEq, Repr

/-- One entry of the interval catalog (an element of `IVL_ALL`, script.js
lines 46-59). -/
structure Ivl where
  code : String
  name : String
  semitones : Int
deriving DecidableEq, Repr

/-- The fixed 12-entry interval catalog `IVL_ALL`, in source order:
minor second (1 semitone) through perfect octave (12 semitones), no unison. -/
def IVL_ALL : List Ivl :=
  [⟨"m2", "minor second", 1⟩,
   ⟨"M2", "major second", 2⟩,
   ⟨"m3", "minor third", 3⟩,
   ⟨"M3", "major third", 4⟩,
   ⟨"P4", "perfect fourth", 5⟩,
   ⟨"A4/d5", "tritone", 6⟩,
   ⟨"P5", "perfect fifth", 7⟩,
   ⟨"m6", "minor sixth", 8⟩,
   ⟨"M6", "major sixth", 9⟩,
   ⟨"m7", "minor seventh", 10⟩,
   ⟨"M7", "major seventh", 11⟩,
   ⟨"P8", "perfect octave", 12⟩]

/-- Default catalog entry used only as the `getD` fallback when indexing
`IVL_ALL`; every call site indexes with a position below 12, so it is never
actually returned (in JS an out-of-range index would yield `undefined`). -/
def IVL_DEFAULT : Ivl := ⟨"", "", 0⟩

/-- `pitchFromPcOct(pc, oct) = oct * 12 + pc` (script.js line 438). -/
def pitchFromPcOct (pc oct : Int) : Int := oct * 12 + pc

/-- `MIN_PITCH = pitchFromPcOct(0, 3)`, i.e. C3 = 36 (script.js line 14). -/
def MIN_PITCH : Int := pitchFromPcOct 0 3

/-- `MAX_PITCH = pitchFromPcOct(0, 5)`, i.e. C5 = 60 (script.js line 15). -/
def MAX_PITCH : Int := pitchFromPcOct 0 5

/-- `NOTE_PLAY_SEC = 1.15` seconds, embedded as 1150 ms (script.js line 18). -/
def NOTE_PLAY_MS : Int := 1150

/-- `GAP_SEC = 0.18` seconds, embedded as 180 ms (script.js line 19). -/
def GAP_MS : Int := 180

/-- `ROUND_START_DELAY_SEC = 0.25` seconds, embedded as 250 ms
(script.js line 20). -/
def ROUND_START_DELAY_MS : Int := 250

/-- The fixed `ctx.currentTime + 0.03` scheduling offset inside
`playCurrentInterval` (script.js line 871), embedded as 30 ms. -/
def SCHED_OFFSET_MS : Int := 30

/-- `AUDIO_DIR = "audio"` (script.js line 11). -/
def AUDIO_DIR : String := "audio"

/-- `PC_TO_STEM` (script.js lines 27-40), as a list indexed by pitch class. -/
def PC_TO_STEM : List String :=
  ["c", "csharp", "d", "dsharp", "e", "f", "fsharp", "g", "gsharp", "a",
   "asharp", "b"]

/-- `PC_NAMES_SHARP` (script.js line 42). -/
def PC_NAMES_SHARP : List String :=
  ["C", "C#", "D", "D#", "E", "F"] ++ ["F#", "G", "G#", "A", "A#", "B"]

/-- `PC_NAMES_FLAT` (script.js line 43). -/
def PC_NAMES_FLAT : List String :=
  ["C", "Db", "D", "Eb", "E", "F"] ++ ["Gb", "G", "Ab", "A", "Bb", "B"]

/-- `pcFromPitch(p) = ((p % 12) + 12) % 12` (script.js line 433).  JS `%` is
the truncated remainder while Lean's `Int` `%` is the Euclidean remainder,
but the two agree on this composite expression (both yield the value in
`[0, 12)` congruent to `p`). -/
def pcFromPitch (p : Int) : Int := ((p % 12) + 12) % 12

/-- `octFromPitch(p) = Math.floor(p / 12)` (script.js line 436): floor
division. -/
def octFromPitch (p : Int) : Int := Int.fdiv p 12

/-- `getStemForPc(pc) = PC_TO_STEM[(pc + 12) % 12] || null`
(script.js line 443). -/
def getStemForPc (pc : Int) : Option String :=
  PC_TO_STEM.get? ((pc + 12) % 12).toNat

/-- `noteUrl(stem, octaveNum)` (script.js line 335). -/
def noteUrl (stem : String) (octaveNum : Int) : String :=
  s!"{AUDIO_DIR}/{stem}{octaveNum}.mp3"

/-- `pitchLabel(pitch)` (script.js lines 446-452): sharp spelling for
naturals, dual "sharp / flat" spelling for the five accidentals. -/
def pitchLabel (pitch : Int) : String :=
  let pc := pcFromPitch pitch
  let oct := octFromPitch pitch
  let sharpName := PC_NAMES_SHARP.getD pc.toNat ""
  let flatName := PC_NAMES_FLAT.getD pc.toNat ""
  if pc = 1 ∨ pc = 3 ∨ pc = 6 ∨ pc = 8 ∨ pc = 10 then
    s!"{sharpName}{oct} / {flatName}{oct}"
  else
    s!"{sharpName}{oct}"

/-- `clampInt(v, lo, hi)` (script.js lines 704-708).  The source first runs
`Number.parseInt(String(v), 10)` and returns `lo` when the result is not a
finite number; we embed the input as `Option Int`, `none` standing for any
value whose parse fails. -/
def clampInt (v : Option Int) (lo hi : Int) : Int :=
  match v with
  | none => lo
  | some n => max lo (min hi n)

/-- The settings object (script.js lines 656-660).  `intervalCount` is kept
as the raw `Option Int` that `clampInt` receives. -/
structure Settings where
  intervalCount : Option Int
  rootMode : RootMode
  fixedRootPitch : Int
deriving DecidableEq, Repr

/-- `activeIntervals()` (script.js lines 710-713): the first
`clampInt(settings.intervalCount, 2, IVL_ALL.length)` catalog entries. -/
def activeIntervals (s : Settings) : List Ivl :=
  IVL_ALL.take (clampInt s.intervalCount 2 (IVL_ALL.length : Int)).toNat

/-- `randIntInclusive(lo, hi)` (script.js lines 823-828).  On integer
arguments `Math.ceil(lo)` and `Math.floor(hi)` are the identity; the random
draw `a + Math.floor(Math.random() * (b - a + 1))` is embedded via the
oracle `r`, reduced modulo the size of the inclusive range. -/
def randIntInclusive (lo hi : Int) (r : Nat) : Int :=
  if hi < lo then lo
  else lo + Int.ofNat (r % (hi - lo + 1).toNat)

/-- A generated question (script.js line 847). -/
structure Question where
  rootPitch : Int
  highPitch : Int
  interval : Ivl
deriving DecidableEq, Repr

/-- `pickQuestion()` (script.js lines 830-848).  `ri` is the oracle for the
interval draw `Math.floor(Math.random() * list.length)` (always in
`[0, list.length)`, embedded as `ri % list.length`), `rr` the oracle for the
root draw inside `randIntInclusive`. -/
def pickQuestion (s : Settings) (ri rr : Nat) : Option Question :=
  let list := activeIntervals s
  let interval := list.getD (ri % list.length) IVL_DEFAULT
  let d := interval.semitones
  let rootPitch :=
    if s.rootMode = RootMode.random then
      randIntInclusive MIN_PITCH (MAX_PITCH - d) rr
    else
      s.fixedRootPitch
  let highPitch := rootPitch + d
  if rootPitch < MIN_PITCH ∨ rootPitch > MAX_PITCH then none
  else if highPitch < MIN_PITCH ∨ highPitch > MAX_PITCH then none
  else some ⟨rootPitch, highPitch, interval⟩

/-- One entry of `score.history` (script.js lines 994-1003). -/
structure AnswerEvent where
  ts : String
  root : String
  high : String
  interval : String
  guess : String
  correct : Bool
  mode : RootMode
  intervalCount : Option Int
deriving DecidableEq, Repr

/-- The score record (script.js lines 647-654). -/
structure Score where
  asked : Nat
  correct : Nat
  incorrect : Nat
  streak : Nat
  longest : Nat
  history : List AnswerEvent
deriving DecidableEq, Repr

/-- `resetScore()` (script.js lines 1128-1135): all counters zero, empty
history. -/
def resetScore : Score :=
  { asked := 0, correct := 0, incorrect := 0, streak := 0, longest := 0,
    history := [] }

/-- The score mutation performed by one accepted submission inside
`onAnswer` (script.js lines 956-1003), factored out: `asked += 1`; on a
correct guess `correct += 1`, `streak += 1`,
`longest = max(longest, streak)`; on an incorrect guess `incorrect += 1`,
`streak = 0`; finally the event is pushed onto `history`. -/
def scoreStep (sc : Score) (isCorrect : Bool) (ev : AnswerEvent) : Score :=
  let s1 := { sc with asked := sc.asked + 1 }
  let s2 :=
    if isCorrect then
      { s1 with correct := s1.correct + 1, streak := s1.streak + 1,
                longest := max s1.longest (s1.streak + 1) }
    else
      { s1 with incorrect := s1.incorrect + 1, streak := 0 }
  { s2 with history := s2.history ++ [ev] }

/-- A deferred enable-answers callback armed via `window.setTimeout` inside
`playCurrentInterval` (script.js lines 883-889): the playback token it
captured and the delay (ms) it was armed with. -/
structure Timer where
  token : Nat
  delayMs : Int
deriving DecidableEq, Repr

/-- A scheduled WebAudio voice: the pitch, its absolute start time (ms), and
whether it is the synthesized fallback (`playSynthToneWindowed`) rather than
a decoded sample (`playBufferWindowed`). -/
structure Voice where
  pitch : Int
  startAtMs : Int
  synth : Bool
deriving DecidableEq, Repr

/-- Result of `loadPitchBuffer(pitch)` (script.js lines 454-464). -/
structure LoadResult where
  missingUrl : Option String
  haveBuffer : Bool
  pitch : Int
deriving DecidableEq, Repr

/-- The mutable session state of script.js: the round flags (lines 663-666),
the score (line 647), the playback token counter `lastPlayToken` (line 262),
the `synthFallbackWarned` flag (line 264), plus the reified side effects the
claims observe (armed enable-answers timers, scheduled voices, surfaced
fallback warnings). -/
structure SysState where
  started : Bool
  canAnswer : Bool
  awaitingNext : Bool
  question : Option Question
  score : Score
  lastPlayToken : Nat
  synthFallbackWarned : Bool
  warnings : List String
  pending : List Timer
  voices : List Voice
deriving DecidableEq, Repr

/-- `loadPitchBuffer(pitch)` (script.js lines 454-464), with the network /
decode outcome supplied by the availability oracle `avail`: when the stem
resolves and `avail pitch` holds the decoded buffer is available, otherwise
the resolved URL is reported missing. -/
def loadPitchBuffer (avail : Int → Bool) (pitch : Int) : LoadResult :=
  let pc := pcFromPitch pitch
  let oct := octFromPitch pitch
  match getStemForPc pc with
  | none => ⟨some "(unknown)", false, pitch⟩
  | some stem =>
    if avail pitch then ⟨none, true, pitch⟩
    else ⟨some (noteUrl stem oct), false, pitch⟩

/-- `maybeWarnSynthFallback(missingUrl)` (script.js lines 423-430): guarded
by the `synthFallbackWarned` flag, surfaces at most one notification for the
whole session. -/
def maybeWarnSynthFallback (missingUrl : String) (st : SysState) : SysState :=
  if st.synthFallbackWarned then st
  else { st with synthFallbackWarned := true,
                 warnings := st.warnings ++ [missingUrl] }

/-- The `startInMs` computation of script.js line 882:
`Math.max(0, Math.round((t0 - ctx.currentTime) * 1000))`, on times already
expressed in integer milliseconds (so the `Math.round` is the identity). -/
def startInMs (t0Ms nowMs : Int) : Int := max 0 (t0Ms - nowMs)

/-- `playCurrentInterval({allowAnswerAfter, delaySec})` (script.js lines
850-897) as a state transition.  `nowMs` is `ctx.currentTime` (ms) at the
time of the call; the model is single-instant, so the small advance of
`ctx.currentTime` across the internal awaits is not represented.  Steps, in
source order: guard on `started`/`question`; take a fresh token from
`lastPlayToken`; clear `canAnswer` (and `awaitingNext` when
`allowAnswerAfter`); `stopAllAudio` (silences every active voice); compute
`t0`; load both buffers; surface the one-time fallback warning if either is
missing; when `allowAnswerAfter`, arm the enable-answers timeout keyed to
the captured token; schedule the two notes (sample or synth fallback). -/
def playCurrentInterval (avail : Int → Bool) (nowMs : Int)
    (allowAnswerAfter : Bool) (delayMs : Int) (st : SysState) : SysState :=
  match st.started, st.question with
  | true, some q =>
    let token := st.lastPlayToken + 1
    let st1 : SysState :=
      if allowAnswerAfter then
        { st with lastPlayToken := token, canAnswer := false,
                  awaitingNext := false }
      else
        { st with lastPlayToken := token, canAnswer := false }
    let st2 := { st1 with voices := [] }
    let safeDelay := max 0 delayMs
    let t0 := nowMs + SCHED_OFFSET_MS + safeDelay
    let a1 := loadPitchBuffer avail q.rootPitch
    let a2 := loadPitchBuffer avail q.highPitch
    let missing := List.find? (fun r => r.missingUrl.isSome) [a1, a2]
    let st3 :=
      match missing with
      | some r =>
        match r.missingUrl with
        | some u => maybeWarnSynthFallback u st2
        | none => st2
      | none => st2
    let st4 :=
      if allowAnswerAfter then
        { st3 with pending := st3.pending ++ [⟨token, startInMs t0 nowMs⟩] }
      else st3
    let v1 : Voice := ⟨q.rootPitch, t0, !a1.haveBuffer⟩
    let v2 : Voice := ⟨q.highPitch, t0 + NOTE_PLAY_MS + GAP_MS, !a2.haveBuffer⟩
    { st4 with voices := st4.voices ++ [v1, v2] }
  | _, _ => st

/-- The body of the deferred enable-answers callback (script.js lines
884-889), fired at its due time: no-op unless the captured token is still
the latest, and no-op when the round is already locked (`awaitingNext`);
otherwise it sets `canAnswer`. -/
def fireEnableTimer (t : Timer) (st : SysState) : SysState :=
  if t.token ≠ st.lastPlayToken then st
  else if st.awaitingNext then st
  else { st with canAnswer := true }

/-- `lockAfterAnswer()` (script.js lines 734-738). -/
def lockAfterAnswer (st : SysState) : SysState :=
  { st with canAnswer := false, awaitingNext := true }

/-- `onAnswer(intervalIndex)` (script.js lines 950-1011).  `ts` is the
`new Date().toISOString()` clock oracle.  The index comes from an answer
button, so it is in `[0, 12)` and is embedded as `Fin 12`.  Guard first
(`!started || !question || !canAnswer || awaitingNext` returns with no
state change), then record the outcome through `scoreStep` and lock. -/
def onAnswer (s : Settings) (ts : String) (intervalIndex : Fin 12)
    (st : SysState) : SysState :=
  match st.started, st.question, st.canAnswer, st.awaitingNext with
  | true, some q, true, false =>
    let chosen := IVL_ALL.getD intervalIndex.val IVL_DEFAULT
    let correct := q.interval
    let isCorrect := chosen.code == correct.code
    let ev : AnswerEvent :=
      ⟨ts, pitchLabel q.rootPitch, pitchLabel q.highPitch, correct.code,
       chosen.code, isCorrect, s.rootMode, s.intervalCount⟩
    lockAfterAnswer { st with score := scoreStep st.score isCorrect ev }
  | _, _, _, _ => st

/-- `stopAndResetToNotStarted()` (script.js lines 1159-1174): stops all
audio, clears the round flags and the question, zeroes the score.  It does
not touch `lastPlayToken`, `synthFallbackWarned`, or any armed timeout. -/
def stopAndResetToNotStarted (st : SysState) : SysState :=
  { st with voices := [],
            started := false, canAnswer := false, awaitingNext := false,
            question := none, score := resetScore }

/-- The `replayBtn` click handler (script.js lines 1238-1242): no-op unless
started with a question; otherwise replays with
`allowAnswerAfter = !awaitingNext` and no extra delay. -/
def replayClick (avail : Int → Bool) (nowMs : Int) (st : SysState) :
    SysState :=
  match st.started, st.question with
  | true, some _ =>
    playCurrentInterval avail nowMs (!st.awaitingNext) 0 st
  | _, _ => st

/-- Specification-side definition (for the streak claim): the length of the
trailing run of `true` outcomes in a list. -/
def trailingRun (l : List Bool) : Nat :=
  (l.reverse.takeWhile (fun b => b)).length

/-- Specification-side definition (for the streak claim): the running
maximum, over all prefixes of the outcome list, of the trailing-run length
— i.e. the running maximum of the streak value. -/
def runningMaxTrailing (l : List Bool) : Nat :=
  (List.range (l.length + 1)).foldl (fun m k => max m (trailingRun (l.take k))) 0

/-- A sample question (perfect fifth on C4) used by concrete witnesses. -/
def demoQuestion : Question := ⟨48, 55, ⟨"P5", "perfect fifth", 7⟩⟩

/-- A started, listening state holding `demoQuestion`; used by concrete
witnesses. -/
def demoReadyState : SysState :=
  { started := true, canAnswer := false, awaitingNext := false,
    question := some demoQuestion, score := resetScore, lastPlayToken := 0,
    synthFallbackWarned := false, warnings := [], pending := [],
    voices := [] }

/-- `demoReadyState` with answers enabled (the AwaitingAnswer phase). -/
def demoAwaitState : SysState := { demoReadyState with canAnswer := true }

/-- `demoReadyState` locked after an answer (the Locked phase). -/
def demoLockedState : SysState := { demoReadyState with awaitingNext := true }

/-- A sample settings object (all 12 intervals, random root) used by
concrete witnesses. -/
def demoSettings : Settings := ⟨some 12, RootMode.random, 48⟩

/-- A sample minor-second question on C4, used by the out-of-active-set
witness. -/
def demoM2Question : Question := ⟨48, 49, ⟨"m2", "minor second", 1⟩⟩

/-- Settings with only the first 2 intervals active, used by the
out-of-active-set witness. -/
def demoNarrowSettings : Settings := ⟨some 2, RootMode.random, 48⟩

/-- An AwaitingAnswer state holding `demoM2Question`. -/
def demoM2AwaitState : SysState :=
  { demoAwaitState with question := some demoM2Question }

/-! ## Helper lemmas about the embedded operations -/

/-- `maybeWarnSynthFallback` only touches the warning flag and the warning
list; every other state component is preserved. -/
theorem mw_core (u : String) (st : SysState) :
    (maybeWarnSynthFallback u st).started = st.started ∧
    (maybeWarnSynthFallback u st).question = st.question ∧
    (maybeWarnSynthFallback u st).canAnswer = st.canAnswer ∧
    (maybeWarnSynthFallback u st).awaitingNext = st.awaitingNext ∧
    (maybeWarnSynthFallback u st).lastPlayToken = st.lastPlayToken ∧
    (maybeWarnSynthFallback u st).score = st.score ∧
    (maybeWarnSynthFallback u st).pending = st.pending ∧
    (maybeWarnSynthFallback u st).voices = st.voices := by
  unfold maybeWarnSynthFallback
  split <;> simp

/-- Component-wise description of one `playCurrentInterval` call on a
started state with a question: the token increments, answering is
disabled, `awaitingNext` is cleared exactly when `allowAnswerAfter`, the
enable timer is armed (keyed to the fresh token, delayed to the schedule
start offset) exactly when `allowAnswerAfter`, and the two notes are
scheduled back to back with the sample/synth choice decided per note. -/
theorem play_spec (avail : Int → Bool) (now d : Int) (allow : Bool)
    (st : SysState) (q : Question)
    (hs : st.started = true) (hq : st.question = some q) :
    (playCurrentInterval avail now allow d st).started = true ∧
    (playCurrentInterval avail now allow d st).question = some q ∧
    (playCurrentInterval avail now allow d st).canAnswer = false ∧
    (playCurrentInterval avail now allow d st).awaitingNext
      = (if allow then false else st.awaitingNext) ∧
    (playCurrentInterval avail now allow d st).lastPlayToken
      = st.lastPlayToken + 1 ∧
    (playCurrentInterval avail now allow d st).score = st.score ∧
    (playCurrentInterval avail now allow d st).pending
      = (if allow then
           st.pending ++
             [⟨st.lastPlayToken + 1,
               startInMs (now + SCHED_OFFSET_MS + max 0 d) now⟩]
         else st.pending) ∧
    (playCurrentInterval avail now allow d st).voices
      = [⟨q.rootPitch, now + SCHED_OFFSET_MS + max 0 d,
          !(loadPitchBuffer avail q.rootPitch).haveBuffer⟩,
         ⟨q.highPitch, now + SCHED_OFFSET_MS + max 0 d + NOTE_PLAY_MS + GAP_MS,
          !(loadPitchBuffer avail q.highPitch).haveBuffer⟩] := by
  simp only [playCurrentInterval, hs, hq]
  cases allow <;>
    · simp only [Bool.false_eq_true, if_false, if_true, reduceIte]
      split <;> (try split) <;> simp [mw_core]

/-- `fireEnableTimer` only ever touches `canAnswer`; every other component
is preserved whether or not the callback acts. -/
theorem fire_core (t : Timer) (st : SysState) :
    (fireEnableTimer t st).started = st.started ∧
    (fireEnableTimer t st).question = st.question ∧
    (fireEnableTimer t st).awaitingNext = st.awaitingNext ∧
    (fireEnableTimer t st).score = st.score ∧
    (fireEnableTimer t st).lastPlayToken = st.lastPlayToken ∧
    (fireEnableTimer t st).pending = st.pending ∧
    (fireEnableTimer t st).voices = st.voices := by
  unfold fireEnableTimer
  split
  · simp
  · split <;> simp

/-- With a fully unavailable asset oracle, `loadPitchBuffer` never yields a
decoded buffer and always reports a missing resource. -/
theorem loadPitchBuffer_unavail (p : Int) :
    (loadPitchBuffer (fun _ => false) p).haveBuffer = false ∧
    (loadPitchBuffer (fun _ => false) p).missingUrl.isSome = true := by
  simp only [loadPitchBuffer]
  rcases h : getStemForPc (pcFromPitch p) with _ | stem <;> simp [h]

/-- When the root note's resource is missing and the one-time flag is still
unset, a `playCurrentInterval` call surfaces exactly one new warning and
sets the flag. -/
theorem play_warn_new (avail : Int → Bool) (now d : Int) (allow : Bool)
    (st : SysState) (q : Question)
    (hs : st.started = true) (hq : st.question = some q)
    (hw : st.synthFallbackWarned = false)
    (h1 : (loadPitchBuffer avail q.rootPitch).missingUrl.isSome = true) :
    (playCurrentInterval avail now allow d st).warnings.length
      = st.warnings.length + 1 ∧
    (playCurrentInterval avail now allow d st).synthFallbackWarned = true := by
  obtain ⟨u, hu⟩ := Option.isSome_iff_exists.mp h1
  cases allow <;>
    simp [playCurrentInterval, hs, hq, List.find?_cons_of_pos, h1, hu,
      maybeWarnSynthFallback, hw]

/-- Once the one-time flag is set, `playCurrentInterval` surfaces no
further warning. -/
theorem play_warn_stays (avail : Int → Bool) (now d : Int) (allow : Bool)
    (st : SysState) (q : Question)
    (hs : st.started = true) (hq : st.question = some q)
    (hw : st.synthFallbackWarned = true) :
    (playCurrentInterval avail now allow d st).warnings = st.warnings ∧
    (playCurrentInterval avail now allow d st).synthFallbackWarned = true := by
  cases allow <;>
    · simp only [playCurrentInterval, hs, hq, Bool.false_eq_true, if_false,
        if_true, reduceIte]
      split <;> (try split) <;> simp [maybeWarnSynthFallback, hw]

/-- The streak update of one accepted submission. -/
theorem scoreStep_streak (sc : Score) (b : Bool) (e : AnswerEvent) :
    (scoreStep sc b e).streak = if b then sc.streak + 1 else 0 := by
  cases b <;> simp [scoreStep]

/-- The longest-streak update of one accepted submission. -/
theorem scoreStep_longest (sc : Score) (b : Bool) (e : AnswerEvent) :
    (scoreStep sc b e).longest
      = if b then max sc.longest (sc.streak + 1) else sc.longest := by
  cases b <;> simp [scoreStep]

/-- Appending one outcome extends the trailing run of correct answers on a
correct outcome and resets it on an incorrect one. -/
theorem trailingRun_concat (l : List Bool) (b : Bool) :
    trailingRun (l ++ [b]) = if b then trailingRun l + 1 else 0 := by
  cases b <;> simp [trailingRun, List.takeWhile]

/-- The running maximum of the trailing run absorbs one appended outcome. -/
theorem runningMaxTrailing_concat (l : List Bool) (b : Bool) :
    runningMaxTrailing (l ++ [b])
      = max (runningMaxTrailing l) (trailingRun (l ++ [b])) := by
  unfold runningMaxTrailing
  have hlen : (l ++ [b]).length = l.length + 1 := by simp
  rw [hlen, List.range_succ, List.foldl_append]
  simp only [List.foldl_cons, List.foldl_nil]
  congr 1
  · apply List.foldl_ext
    intro a k hk
    have hk2 : k ≤ l.length := by
      simp only [List.mem_range] at hk
      omega
    rw [List.take_append_of_le_length hk2]
  · rw [← hlen, List.take_length]

/-- The trailing run never exceeds its own running maximum. -/
theorem trailingRun_le_runningMax (l : List Bool) :
    trailingRun l ≤ runningMaxTrailing l := by
  induction l using List.reverseRecOn with
  | nil => simp [trailingRun, runningMaxTrailing]
  | append_singleton l b _ =>
    rw [runningMaxTrailing_concat]
    exact le_max_right _ _

/-- The 12 catalog entries carry pairwise distinct codes. -/
theorem ivl_codes_distinct :
    ∀ i j : Fin 12, i ≠ j →
      (IVL_ALL.getD i.val IVL_DEFAULT).code
        ≠ (IVL_ALL.getD j.val IVL_DEFAULT).code := by
  decide

/-! ## Claim theorems -/

/-- Claim C1: two `playCurrentInterval` invocations in succession take
strictly increasing tokens from `lastPlayToken` (the first gets
`lastPlayToken + 1`, the second `lastPlayToken + 2`); both enable-answers
callbacks are armed keyed to their captured tokens, but any callback keyed
to a non-latest token (in particular the first invocation's) is a no-op
because it compares its token against `lastPlayToken` before acting, and
the callback keyed to the latest token does set `canAnswer`. -/
theorem c1_token_supersession (avail₁ avail₂ : Int → Bool)
    (now₁ now₂ d₁ d₂ : Int) (st : SysState) (q : Question)
    (hs : st.started = true) (hq : st.question = some q) :
    let stA := playCurrentInterval avail₁ now₁ true d₁ st
    let stB := playCurrentInterval avail₂ now₂ true d₂ stA
    stA.lastPlayToken = st.lastPlayToken + 1 ∧
    stB.lastPlayToken = st.lastPlayToken + 2 ∧
    (⟨st.lastPlayToken + 1,
      startInMs (now₁ + SCHED_OFFSET_MS + max 0 d₁) now₁⟩ : Timer)
        ∈ stB.pending ∧
    (⟨st.lastPlayToken + 2,
      startInMs (now₂ + SCHED_OFFSET_MS + max 0 d₂) now₂⟩ : Timer)
        ∈ stB.pending ∧
    (∀ t : Timer, t.token ≠ stB.lastPlayToken → fireEnableTimer t stB = stB) ∧
    (∀ m : Int, fireEnableTimer ⟨st.lastPlayToken + 1, m⟩ stB = stB) ∧
    (∀ m : Int,
      (fireEnableTimer ⟨st.lastPlayToken + 2, m⟩ stB).canAnswer = true) := by
  intro stA stB
  obtain ⟨hA1, hA2, hA3, hA4, hA5, hA6, hA7, hA8⟩ :=
    play_spec avail₁ now₁ d₁ true st q hs hq
  obtain ⟨hB1, hB2, hB3, hB4, hB5, hB6, hB7, hB8⟩ :=
    play_spec avail₂ now₂ d₂ true stA q hA1 hA2
  have htokA : stA.lastPlayToken = st.lastPlayToken + 1 := hA5
  have htokB : stB.lastPlayToken = st.lastPlayToken + 2 := by
    rw [hB5, htokA]
  have hpend : stB.pending
      = st.pending
        ++ [⟨st.lastPlayToken + 1,
             startInMs (now₁ + SCHED_OFFSET_MS + max 0 d₁) now₁⟩]
        ++ [⟨st.lastPlayToken + 2,
             startInMs (now₂ + SCHED_OFFSET_MS + max 0 d₂) now₂⟩] := by
    simp only [if_true] at hB7 hA7
    rw [hB7, hA7, htokA]
  refine ⟨htokA, htokB, ?_, ?_, ?_, ?_, ?_⟩
  · rw [hpend]; simp
  · rw [hpend]; simp
  · intro t ht
    simp [fireEnableTimer, ht]
  · intro m
    have : (⟨st.lastPlayToken + 1, m⟩ : Timer).token ≠ stB.lastPlayToken := by
      simp [htokB]
    simp [fireEnableTimer, this]
  · intro m
    have ht : (⟨st.lastPlayToken + 2, m⟩ : Timer).token = stB.lastPlayToken := by
      simp [htokB]
    have hn : stB.awaitingNext = false := by simpa using hB4
    simp [fireEnableTimer, ht, hn, htokB]

/-- Witness for C1, at a concrete started state with a question and token
counter 0. -/
theorem c1_token_supersession_witness :
    let stA := playCurrentInterval (fun _ => true) 0 true 0 demoReadyState
    let stB := playCurrentInterval (fun _ => true) 0 true 0 stA
    stA.lastPlayToken = demoReadyState.lastPlayToken + 1 ∧
    stB.lastPlayToken = demoReadyState.lastPlayToken + 2 ∧
    (⟨demoReadyState.lastPlayToken + 1,
      startInMs (0 + SCHED_OFFSET_MS + max 0 0) 0⟩ : Timer) ∈ stB.pending ∧
    (⟨demoReadyState.lastPlayToken + 2,
      startInMs (0 + SCHED_OFFSET_MS + max 0 0) 0⟩ : Timer) ∈ stB.pending ∧
    (∀ t : Timer, t.token ≠ stB.lastPlayToken → fireEnableTimer t stB = stB) ∧
    (∀ m : Int, fireEnableTimer ⟨demoReadyState.lastPlayToken + 1, m⟩ stB = stB) ∧
    (∀ m : Int,
      (fireEnableTimer ⟨demoReadyState.lastPlayToken + 2, m⟩ stB).canAnswer = true) :=
  c1_token_supersession (fun _ => true) (fun _ => true) 0 0 0 0
    demoReadyState demoQuestion rfl rfl

/-- Counterexample to claim C2 as stated: for a playback started with the
round-start delay (0.25 s) at `ctx.currentTime = 0`, the enable-answers
callback is armed with a delay of 280 ms — the schedule's start offset,
when the FIRST note begins — while the second note only starts at
1610 ms = 280 ms + noteDuration + gap.  The claimed enable delay of
`noteDuration + gap` after the start offset (1610 ms) differs from the
armed delay (280 ms). -/
theorem c2_counterexample :
    let stA := playCurrentInterval (fun _ => true) 0 true
                 ROUND_START_DELAY_MS demoReadyState
    stA.pending = [⟨1, 280⟩] ∧
    stA.voices.map Voice.startAtMs = [280, 1610] ∧
    (280 : Int) + NOTE_PLAY_MS + GAP_MS = 1610 ∧
    (280 : Int) ≠ 1610 := by
  decide

/-- Claim C2 (amended): for every playback started with
`allowAnswerAfter = true`, the enable-answers callback is armed at the
schedule's start offset itself — the delay until the FIRST note starts
(`0.03 s + delaySec` after the call) — not `noteDuration + gap` later; the
second note is scheduled `noteDuration + gap` after that offset. -/
theorem c2_enable_at_schedule_start (avail : Int → Bool) (now d : Int)
    (st : SysState) (q : Question)
    (hs : st.started = true) (hq : st.question = some q) :
    let stA := playCurrentInterval avail now true d st
    let t0 := now + SCHED_OFFSET_MS + max 0 d
    stA.pending = st.pending ++ [⟨st.lastPlayToken + 1, startInMs t0 now⟩] ∧
    stA.voices.map Voice.startAtMs = [t0, t0 + NOTE_PLAY_MS + GAP_MS] ∧
    startInMs t0 now = SCHED_OFFSET_MS + max 0 d := by
  intro stA t0
  obtain ⟨hA1, hA2, hA3, hA4, hA5, hA6, hA7, hA8⟩ :=
    play_spec avail now d true st q hs hq
  refine ⟨by simpa using hA7, by rw [hA8]; simp, ?_⟩
  simp only [startInMs, SCHED_OFFSET_MS, t0]
  omega

/-- Witness for the amended C2 at a concrete state. -/
theorem c2_enable_at_schedule_start_witness :
    let stA := playCurrentInterval (fun _ => true) 0 true
                 ROUND_START_DELAY_MS demoReadyState
    let t0 := 0 + SCHED_OFFSET_MS + max 0 ROUND_START_DELAY_MS
    stA.pending = demoReadyState.pending
        ++ [⟨demoReadyState.lastPlayToken + 1, startInMs t0 0⟩] ∧
    stA.voices.map Voice.startAtMs = [t0, t0 + NOTE_PLAY_MS + GAP_MS] ∧
    startInMs t0 0 = SCHED_OFFSET_MS + max 0 ROUND_START_DELAY_MS :=
  c2_enable_at_schedule_start (fun _ => true) 0 ROUND_START_DELAY_MS
    demoReadyState demoQuestion rfl rfl

/-- Counterexample to claim C3 as stated: a playback arms an enable timer
keyed to token 1; `stopAndResetToNotStarted` runs (clearing the round) but
does not cancel the timer nor advance `lastPlayToken`, so when the stale
callback fires after the reset its token still matches, `awaitingNext` is
false, and it sets `canAnswer` to `true` — contradicting "no deferred
callback armed before the reset can afterwards set canAnswer to true". -/
theorem c3_counterexample :
    let stA := playCurrentInterval (fun _ => true) 0 true
                 ROUND_START_DELAY_MS demoReadyState
    let stR := stopAndResetToNotStarted stA
    stA.pending = [⟨1, 280⟩] ∧
    stR.started = false ∧
    stR.question = none ∧
    stR.pending = [⟨1, 280⟩] ∧
    (fireEnableTimer ⟨1, 280⟩ stR).canAnswer = true := by
  decide

/-- Claim C3 (amended): `reset` is legal from any state and afterwards the
machine is NotStarted (`started`, `canAnswer`, `awaitingNext` cleared,
question cleared, score zeroed with empty history, audio silenced).
Pending enable-answers timers are NOT cancelled — one whose token is still
the latest can set the `canAnswer` flag after the reset — but such a stale
callback cannot restart the round, restore a question, change the score,
or enable an actual submission: `onAnswer` remains a no-op because
`started` is false. -/
theorem c3_reset_clears_state (st : SysState) (t : Timer) (s : Settings)
    (ts : String) (idx : Fin 12) :
    let stR := stopAndResetToNotStarted st
    stR.started = false ∧
    stR.canAnswer = false ∧
    stR.awaitingNext = false ∧
    stR.question = none ∧
    stR.score = resetScore ∧
    stR.voices = [] ∧
    (fireEnableTimer t stR).started = false ∧
    (fireEnableTimer t stR).awaitingNext = false ∧
    (fireEnableTimer t stR).question = none ∧
    (fireEnableTimer t stR).score = resetScore ∧
    onAnswer s ts idx (fireEnableTimer t stR) = fireEnableTimer t stR := by
  intro stR
  obtain ⟨hf1, hf2, hf3, hf4, hf5, hf6, hf7⟩ := fire_core t stR
  have h1 : stR.started = false := rfl
  have h2 : stR.awaitingNext = false := rfl
  have h3 : stR.question = none := rfl
  have h4 : stR.score = resetScore := rfl
  have hst : (fireEnableTimer t stR).started = false := by rw [hf1]; exact h1
  refine ⟨rfl, rfl, rfl, rfl, rfl, rfl, ?_, ?_, ?_, ?_, ?_⟩
  · exact hst
  · rw [hf3]; exact h2
  · rw [hf2]; exact h3
  · rw [hf4]; exact h4
  · unfold onAnswer
    rw [hst]

/-- Claim C4: whenever `pickQuestion` returns a question — for any settings
(including fixed root mode with an arbitrary `fixedRootPitch`) and any
random draws — both its pitches lie in `[MIN_PITCH, MAX_PITCH]` and the
high pitch is exactly the root plus the interval's semitone count; an
out-of-range candidate is rejected (`none`) by the validation. -/
theorem c4_pickQuestion_in_range (s : Settings) (ri rr : Nat) (q : Question)
    (h : pickQuestion s ri rr = some q) :
    MIN_PITCH ≤ q.rootPitch ∧ q.rootPitch ≤ MAX_PITCH ∧
    MIN_PITCH ≤ q.highPitch ∧ q.highPitch ≤ MAX_PITCH ∧
    q.highPitch = q.rootPitch + q.interval.semitones := by
  simp only [pickQuestion, Option.ite_none_left_eq_some, Option.some_inj] at h
  obtain ⟨h1, h2, h3⟩ := h
  push_neg at h1 h2
  subst h3
  exact ⟨h1.1, h1.2, h2.1, h2.2, rfl⟩

/-- Witness for C4 with fixed root C4 and the perfect-fifth draw. -/
theorem c4_pickQuestion_in_range_witness :
    MIN_PITCH ≤ demoQuestion.rootPitch ∧ demoQuestion.rootPitch ≤ MAX_PITCH ∧
    MIN_PITCH ≤ demoQuestion.highPitch ∧ demoQuestion.highPitch ≤ MAX_PITCH ∧
    demoQuestion.highPitch
      = demoQuestion.rootPitch + demoQuestion.interval.semitones :=
  c4_pickQuestion_in_range ⟨some 12, RootMode.fixed, 48⟩ 6 0 demoQuestion
    (by decide)

/-- Claim C5: for every `intervalCount` in `[2, 12]` the active interval
set is exactly the first `intervalCount` catalog entries in catalog order,
and for every raw value (out of range or non-numeric, i.e. `none`) the
clamp lands in `[2, 12]`, so the active set is always a catalog-order
prefix selected by the clamped count. -/
theorem c5_activeIntervals_first_n (n : Int) (v : Option Int) (rm : RootMode)
    (fp : Int) (h2 : 2 ≤ n) (h12 : n ≤ 12) :
    activeIntervals ⟨some n, rm, fp⟩ = IVL_ALL.take n.toNat ∧
    (activeIntervals ⟨some n, rm, fp⟩).length = n.toNat ∧
    2 ≤ clampInt v 2 (IVL_ALL.length : Int) ∧
    clampInt v 2 (IVL_ALL.length : Int) ≤ 12 ∧
    activeIntervals ⟨v, rm, fp⟩
      = IVL_ALL.take (clampInt v 2 (IVL_ALL.length : Int)).toNat := by
  have hlen : (IVL_ALL.length : Int) = 12 := by decide
  have hc : clampInt (some n) 2 (IVL_ALL.length : Int) = n := by
    rw [hlen]
    simp only [clampInt]
    omega
  have htake : activeIntervals ⟨some n, rm, fp⟩ = IVL_ALL.take n.toNat := by
    simp only [activeIntervals, hc]
  refine ⟨htake, ?_, ?_, ?_, rfl⟩
  · rw [htake, List.length_take]
    have : IVL_ALL.length = 12 := by decide
    omega
  · rcases v with _ | m <;> simp [clampInt]
  · rcases v with _ | m <;> rw [hlen] <;> simp [clampInt]

/-- Witness for C5 at `intervalCount = 5` and the out-of-range raw value
99. -/
theorem c5_activeIntervals_first_n_witness :
    activeIntervals ⟨some 5, RootMode.random, 48⟩ = IVL_ALL.take (5 : Int).toNat ∧
    (activeIntervals ⟨some 5, RootMode.random, 48⟩).length = (5 : Int).toNat ∧
    2 ≤ clampInt (some 99) 2 (IVL_ALL.length : Int) ∧
    clampInt (some 99) 2 (IVL_ALL.length : Int) ≤ 12 ∧
    activeIntervals ⟨some 99, RootMode.random, 48⟩
      = IVL_ALL.take (clampInt (some 99) 2 (IVL_ALL.length : Int)).toNat :=
  c5_activeIntervals_first_n 5 (some 99) RootMode.random 48
    (by decide) (by decide)

/-- Claim C6: `onAnswer` is a no-op whenever the round is not in the
AwaitingAnswer phase (not started, no question, answering disabled, or
already locked); an accepted submission appends exactly one event to the
history, increments `asked` by one, updates either the correct counter and
streak or the incorrect counter (resetting the streak), and locks the
round (`canAnswer` false, `awaitingNext` true). -/
theorem c6_submitAnswer (s : Settings) (ts : String) (idx : Fin 12)
    (st : SysState) :
    (¬(st.started = true ∧ st.question.isSome ∧ st.canAnswer = true ∧
        st.awaitingNext = false) →
      onAnswer s ts idx st = st) ∧
    (∀ q : Question, st.started = true → st.question = some q →
      st.canAnswer = true → st.awaitingNext = false →
      ∃ ev : AnswerEvent,
        (onAnswer s ts idx st).score.history = st.score.history ++ [ev] ∧
        (onAnswer s ts idx st).score.asked = st.score.asked + 1 ∧
        (((onAnswer s ts idx st).score.correct = st.score.correct + 1 ∧
          (onAnswer s ts idx st).score.incorrect = st.score.incorrect ∧
          (onAnswer s ts idx st).score.streak = st.score.streak + 1) ∨
         ((onAnswer s ts idx st).score.incorrect = st.score.incorrect + 1 ∧
          (onAnswer s ts idx st).score.correct = st.score.correct ∧
          (onAnswer s ts idx st).score.streak = 0)) ∧
        (onAnswer s ts idx st).canAnswer = false ∧
        (onAnswer s ts idx st).awaitingNext = true ∧
        (onAnswer s ts idx st).started = true ∧
        (onAnswer s ts idx st).question = some q) := by
  obtain ⟨std, ca, an, qu, sc, tok, wf, ws, pd, vs⟩ := st
  constructor
  · intro hguard
    cases std <;> rcases qu with _ | q <;> cases ca <;> cases an <;>
      simp_all [onAnswer]
  · intro q hs hq hc hn
    simp only at hs hq hc hn
    subst hs; subst hq; subst hc; subst hn
    rcases hb : ((IVL_ALL.getD idx.val IVL_DEFAULT).code == q.interval.code)
      with _ | _
    · have hne : (IVL_ALL[idx.val]?.getD IVL_DEFAULT).code ≠ q.interval.code := by
        simpa [List.getD_eq_getElem?_getD] using hb
      refine ⟨⟨ts, pitchLabel q.rootPitch, pitchLabel q.highPitch,
        q.interval.code, (IVL_ALL.getD idx.val IVL_DEFAULT).code, false,
        s.rootMode, s.intervalCount⟩, ?_⟩
      simp [onAnswer, scoreStep, lockAfterAnswer, hb, hne]
    · have heq : (IVL_ALL[idx.val]?.getD IVL_DEFAULT).code = q.interval.code := by
        simpa [List.getD_eq_getElem?_getD] using hb
      refine ⟨⟨ts, pitchLabel q.rootPitch, pitchLabel q.highPitch,
        q.interval.code, (IVL_ALL.getD idx.val IVL_DEFAULT).code, true,
        s.rootMode, s.intervalCount⟩, ?_⟩
      simp [onAnswer, scoreStep, lockAfterAnswer, hb, heq]

/-- Witness for C6: the no-op side at a state with answering disabled, the
recording side at a concrete AwaitingAnswer state. -/
theorem c6_submitAnswer_witness :
    (onAnswer demoSettings "t" 0 demoReadyState = demoReadyState) ∧
    (∃ ev : AnswerEvent,
      (onAnswer demoSettings "t" 0 demoAwaitState).score.history
        = demoAwaitState.score.history ++ [ev] ∧
      (onAnswer demoSettings "t" 0 demoAwaitState).score.asked
        = demoAwaitState.score.asked + 1 ∧
      (((onAnswer demoSettings "t" 0 demoAwaitState).score.correct
          = demoAwaitState.score.correct + 1 ∧
        (onAnswer demoSettings "t" 0 demoAwaitState).score.incorrect
          = demoAwaitState.score.incorrect ∧
        (onAnswer demoSettings "t" 0 demoAwaitState).score.streak
          = demoAwaitState.score.streak + 1) ∨
       ((onAnswer demoSettings "t" 0 demoAwaitState).score.incorrect
          = demoAwaitState.score.incorrect + 1 ∧
        (onAnswer demoSettings "t" 0 demoAwaitState).score.correct
          = demoAwaitState.score.correct ∧
        (onAnswer demoSettings "t" 0 demoAwaitState).score.streak = 0)) ∧
      (onAnswer demoSettings "t" 0 demoAwaitState).canAnswer = false ∧
      (onAnswer demoSettings "t" 0 demoAwaitState).awaitingNext = true ∧
      (onAnswer demoSettings "t" 0 demoAwaitState).started = true ∧
      (onAnswer demoSettings "t" 0 demoAwaitState).question
        = some demoQuestion) :=
  ⟨(c6_submitAnswer demoSettings "t" 0 demoReadyState).1 (by decide),
   (c6_submitAnswer demoSettings "t" 0 demoAwaitState).2 demoQuestion
     rfl rfl rfl rfl⟩

/-- Claim C7: after any sequence of accepted outcomes folded over a reset
score, `streak` equals the length of the trailing run of correct outcomes,
`longest` equals the running maximum of the streak over all prefixes, and
therefore `longest ≥ streak`. -/
theorem c7_streak_invariant (outs : List (Bool × AnswerEvent)) :
    let final := outs.foldl (fun sc be => scoreStep sc be.1 be.2) resetScore
    final.streak = trailingRun (outs.map Prod.fst) ∧
    final.longest = runningMaxTrailing (outs.map Prod.fst) ∧
    final.streak ≤ final.longest := by
  intro final
  have key : ∀ l : List (Bool × AnswerEvent),
      (l.foldl (fun sc be => scoreStep sc be.1 be.2) resetScore).streak
          = trailingRun (l.map Prod.fst) ∧
      (l.foldl (fun sc be => scoreStep sc be.1 be.2) resetScore).longest
          = runningMaxTrailing (l.map Prod.fst) := by
    intro l
    induction l using List.reverseRecOn with
    | nil =>
      constructor
      · rfl
      · decide
    | append_singleton l x ih =>
      obtain ⟨ih1, ih2⟩ := ih
      rcases x with ⟨b, e⟩
      rw [List.foldl_append]
      simp only [List.foldl_cons, List.foldl_nil, List.map_append,
        List.map_cons, List.map_nil]
      constructor
      · rw [scoreStep_streak, ih1, trailingRun_concat]
      · rw [scoreStep_longest, ih1, ih2, runningMaxTrailing_concat,
          trailingRun_concat]
        cases b <;> simp
  refine ⟨(key outs).1, (key outs).2, ?_⟩
  rw [(key outs).1, (key outs).2]
  exact trailingRun_le_runningMax _

/-- Claim C8: a replay issued while the round is Locked
(`awaitingNext = true`) still schedules the current question's two notes
(with their back-to-back timing) but calls the scheduler with
`allowAnswerAfter = false`, so no enable-answers timer is armed, the
pending list is unchanged, `canAnswer` stays false and the round stays
Locked; and the replay handler is a no-op when the game has not started or
no question exists. -/
theorem c8_replay_locked (avail : Int → Bool) (now : Int) (st : SysState)
    (q : Question) (hs : st.started = true) (hq : st.question = some q)
    (hl : st.awaitingNext = true) :
    let stR := replayClick avail now st
    stR.awaitingNext = true ∧
    stR.canAnswer = false ∧
    stR.pending = st.pending ∧
    stR.voices.map Voice.pitch = [q.rootPitch, q.highPitch] ∧
    stR.voices.map Voice.startAtMs
      = [now + SCHED_OFFSET_MS, now + SCHED_OFFSET_MS + NOTE_PLAY_MS + GAP_MS] ∧
    (∀ stX : SysState, stX.started = false ∨ stX.question = none →
        replayClick avail now stX = stX) := by
  intro stR
  have hstR : stR = playCurrentInterval avail now false 0 st := by
    simp only [replayClick, hs, hq, hl, stR, Bool.not_true]
  obtain ⟨h1, h2, h3, h4, h5, h6, h7, h8⟩ :=
    play_spec avail now 0 false st q hs hq
  refine ⟨?_, ?_, ?_, ?_, ?_, ?_⟩
  · rw [hstR, h4]; simp [hl]
  · rw [hstR]; exact h3
  · rw [hstR, h7]; simp
  · rw [hstR, h8]; simp
  · rw [hstR, h8]; simp
  · intro stX hX
    obtain ⟨xs, xc, xa, xq, xsc, xt, xw, xws, xp, xv⟩ := stX
    rcases hX with hX | hX
    · simp only at hX
      subst hX
      rcases xq with _ | q2 <;> simp [replayClick]
    · simp only at hX
      subst hX
      cases xs <;> simp [replayClick]

/-- Witness for C8 at a concrete Locked state. -/
theorem c8_replay_locked_witness :
    let stR := replayClick (fun _ => true) 0 demoLockedState
    stR.awaitingNext = true ∧
    stR.canAnswer = false ∧
    stR.pending = demoLockedState.pending ∧
    stR.voices.map Voice.pitch = [demoQuestion.rootPitch, demoQuestion.highPitch] ∧
    stR.voices.map Voice.startAtMs
      = [0 + SCHED_OFFSET_MS, 0 + SCHED_OFFSET_MS + NOTE_PLAY_MS + GAP_MS] ∧
    (∀ stX : SysState, stX.started = false ∨ stX.question = none →
        replayClick (fun _ => true) 0 stX = stX) :=
  c8_replay_locked (fun _ => true) 0 demoLockedState demoQuestion rfl rfl rfl

/-- Claim C9: when both notes' sample resources fail to load and the
one-time flag is unset, a playback surfaces exactly one warning (not one
per note), sets `synthFallbackWarned`, and still schedules a synthesized
voice for each missing note; a later playback in the same session adds no
further warning while still synthesizing both notes. -/
theorem c9_synth_fallback_once (now₁ now₂ d₁ d₂ : Int) (st : SysState)
    (q : Question) (hs : st.started = true) (hq : st.question = some q)
    (hw : st.synthFallbackWarned = false) :
    let stA := playCurrentInterval (fun _ => false) now₁ true d₁ st
    let stB := playCurrentInterval (fun _ => false) now₂ true d₂ stA
    stA.warnings.length = st.warnings.length + 1 ∧
    stA.synthFallbackWarned = true ∧
    stA.voices.map Voice.synth = [true, true] ∧
    stB.warnings = stA.warnings ∧
    stB.voices.map Voice.synth = [true, true] := by
  intro stA stB
  obtain ⟨hA1, hA2, _, _, _, _, _, hA8⟩ :=
    play_spec (fun _ => false) now₁ d₁ true st q hs hq
  have hwn := play_warn_new (fun _ => false) now₁ d₁ true st q hs hq hw
    (loadPitchBuffer_unavail q.rootPitch).2
  have hws := play_warn_stays (fun _ => false) now₂ d₂ true stA q hA1 hA2
    hwn.2
  obtain ⟨_, _, _, _, _, _, _, hB8⟩ :=
    play_spec (fun _ => false) now₂ d₂ true stA q hA1 hA2
  refine ⟨hwn.1, hwn.2, ?_, hws.1, ?_⟩
  · rw [hA8]
    simp [(loadPitchBuffer_unavail q.rootPitch).1,
      (loadPitchBuffer_unavail q.highPitch).1]
  · rw [hB8]
    simp [(loadPitchBuffer_unavail q.rootPitch).1,
      (loadPitchBuffer_unavail q.highPitch).1]

/-- Witness for C9 at a concrete fresh state with every asset missing. -/
theorem c9_synth_fallback_once_witness :
    let stA := playCurrentInterval (fun _ => false) 0 true 0 demoReadyState
    let stB := playCurrentInterval (fun _ => false) 0 true 0 stA
    stA.warnings.length = demoReadyState.warnings.length + 1 ∧
    stA.synthFallbackWarned = true ∧
    stA.voices.map Voice.synth = [true, true] ∧
    stB.warnings = stA.warnings ∧
    stB.voices.map Voice.synth = [true, true] :=
  c9_synth_fallback_once 0 0 0 0 demoReadyState demoQuestion rfl rfl rfl

/-- Claim C10 (implicit): while answering is enabled, `onAnswer` accepts
any catalog index 0..11, including indices at or beyond the active
interval count (those buttons are hidden, not rejected by the core); such
a submission is recorded and scored like any other, and since the correct
interval always lies in the active set and catalog codes are pairwise
distinct, an accepted guess with index at or beyond the active count is
recorded as incorrect. -/
theorem c10_out_of_set_guess (s : Settings) (ts : String) (st : SysState)
    (q : Question) (idx : Fin 12)
    (hs : st.started = true) (hq : st.question = some q)
    (hc : st.canAnswer = true) (hn : st.awaitingNext = false)
    (hmem : q.interval ∈ activeIntervals s)
    (hidx : (activeIntervals s).length ≤ idx.val) :
    (onAnswer s ts idx st).score.history
      = st.score.history ++
        [⟨ts, pitchLabel q.rootPitch, pitchLabel q.highPitch, q.interval.code,
          (IVL_ALL.getD idx.val IVL_DEFAULT).code, false, s.rootMode,
          s.intervalCount⟩] ∧
    (onAnswer s ts idx st).score.asked = st.score.asked + 1 ∧
    (onAnswer s ts idx st).score.incorrect = st.score.incorrect + 1 ∧
    (onAnswer s ts idx st).score.correct = st.score.correct ∧
    (onAnswer s ts idx st).score.streak = 0 ∧
    (onAnswer s ts idx st).awaitingNext = true ∧
    (onAnswer s ts idx st).canAnswer = false := by
  obtain ⟨i, hi, hgi⟩ := List.getElem_of_mem hmem
  have hi_idx : i < idx.val := lt_of_lt_of_le hi hidx
  have hidx12 : idx.val < 12 := idx.isLt
  have hi12 : i < 12 := lt_trans hi_idx hidx12
  have hilen : i < IVL_ALL.length := by
    have h12 : IVL_ALL.length = 12 := by decide
    omega
  simp only [activeIntervals] at hgi
  rw [List.getElem_take] at hgi
  have hgetD : IVL_ALL.getD i IVL_DEFAULT = q.interval := by
    rw [List.getD_eq_getElem IVL_ALL IVL_DEFAULT hilen]
    exact hgi
  have hfin : (⟨i, hi12⟩ : Fin 12) ≠ idx := by
    intro hcon
    have : i = idx.val := congrArg Fin.val hcon
    omega
  have hdz := ivl_codes_distinct ⟨i, hi12⟩ idx hfin
  rw [hgetD] at hdz
  have hne : (IVL_ALL.getD idx.val IVL_DEFAULT).code ≠ q.interval.code :=
    fun hcon => hdz hcon.symm
  have hb : ((IVL_ALL.getD idx.val IVL_DEFAULT).code == q.interval.code)
      = false := by
    simpa using hne
  have hne2 : (IVL_ALL[idx.val]?.getD IVL_DEFAULT).code ≠ q.interval.code := by
    simpa [List.getD_eq_getElem?_getD] using hne
  obtain ⟨std, ca, an, qu, sc, tok, wf, ws, pd, vs⟩ := st
  simp only at hs hq hc hn
  subst hs; subst hq; subst hc; subst hn
  simp [onAnswer, scoreStep, lockAfterAnswer, hb, hne2]

/-- Witness for C10: with only 2 active intervals and a minor-second
question, guessing catalog index 5 (a hidden button) is accepted and
recorded as incorrect. -/
theorem c10_out_of_set_guess_witness :
    (onAnswer demoNarrowSettings "t" (5 : Fin 12) demoM2AwaitState).score.history
      = demoM2AwaitState.score.history ++
        [⟨"t", pitchLabel demoM2Question.rootPitch,
          pitchLabel demoM2Question.highPitch, demoM2Question.interval.code,
          (IVL_ALL.getD (5 : Fin 12).val IVL_DEFAULT).code, false,
          demoNarrowSettings.rootMode, demoNarrowSettings.intervalCount⟩] ∧
    (onAnswer demoNarrowSettings "t" (5 : Fin 12) demoM2AwaitState).score.asked
      = demoM2AwaitState.score.asked + 1 ∧
    (onAnswer demoNarrowSettings "t" (5 : Fin 12) demoM2AwaitState).score.incorrect
      = demoM2AwaitState.score.incorrect + 1 ∧
    (onAnswer demoNarrowSettings "t" (5 : Fin 12) demoM2AwaitState).score.correct
      = demoM2AwaitState.score.correct ∧
    (onAnswer demoNarrowSettings "t" (5 : Fin 12) demoM2AwaitState).score.streak
      = 0 ∧
    (onAnswer demoNarrowSettings "t" (5 : Fin 12) demoM2AwaitState).awaitingNext
      = true ∧
    (onAnswer demoNarrowSettings "t" (5 : Fin 12) demoM2AwaitState).canAnswer
      = false :=
  c10_out_of_set_guess demoNarrowSettings "t" demoM2AwaitState demoM2Question
    (5 : Fin 12) rfl rfl rfl rfl (by decide) (by decide)

end WTI
